import Mathlib

/-!
Shallow embedding of the terranovate dependency-update engine:
the version checker (`internal/version`), the resource-impact analyzer and
schema comparator (`internal/terraform`), the repository tag cache
(`internal/cache`), the display filters (`cmd/check.go`) and the
breaking-change aggregation performed in `cmd/scan.go`.
-/

namespace Terranovate

/-- Update type classification (`internal/version`: the `UpdateType` constants
major / minor / patch / unknown). -/
inductive UpdateType where
  | major
  | minor
  | patch
  | unknown
deriving DecidableEq

/-- Modelled from the spec: a parsed semantic version of the
`hashicorp/go-version` dependency (the library is not part of this
repository).  It carries the numeric segments (padded to at least three by
the library's parser) and the prerelease string; precedence compares the
segments first and prerelease identifiers second. -/
structure GoVersion where
  segments : List Int
  pre : String
deriving DecidableEq

/-- Modelled from the spec: go-version `allZero` helper, true when every
remaining segment is zero. -/
def allZero : List Int → Bool
  | [] => true
  | s :: rest => if s ≠ 0 then false else allZero rest

/-- Modelled from the spec: go-version `comparePart`, comparing one
dot-separated prerelease identifier; numeric identifiers order numerically
and sort before non-numeric ones. -/
def comparePart (pS pO : String) : Int :=
  if pS = pO then 0
  else
    let selfInt := (pS.toInt?).getD 0
    let otherInt := (pO.toInt?).getD 0
    let selfNumeric := (pS.toInt?).isSome
    let otherNumeric := (pO.toInt?).isSome
    if pS = "" then (if otherNumeric then -1 else 1)
    else if pO = "" then (if selfNumeric then 1 else -1)
    else if selfNumeric && !otherNumeric then -1
    else if !selfNumeric && otherNumeric then 1
    else if !selfNumeric && !otherNumeric && decide (pO < pS) then 1
    else if selfInt > otherInt then 1
    else -1

/-- Modelled from the spec: pairwise comparison of prerelease identifier
lists, missing identifiers compared as the empty string. -/
def comparePartsList : List String → List String → Int
  | [], [] => 0
  | [], o :: os =>
    let c := comparePart "" o
    if c ≠ 0 then c else comparePartsList [] os
  | s :: ss, [] =>
    let c := comparePart s ""
    if c ≠ 0 then c else comparePartsList ss []
  | s :: ss, o :: os =>
    let c := comparePart s o
    if c ≠ 0 then c else comparePartsList ss os

/-- Modelled from the spec: go-version `comparePrereleases`. -/
def comparePrereleases (v other : String) : Int :=
  if v = other then 0
  else comparePartsList (v.splitOn ".") (other.splitOn ".")

/-- Modelled from the spec: the segment-comparison loop of go-version
`Compare`; when one side runs out of segments the remainder of the other
side must be all zeros for the versions to compare equal. -/
def compareSegmentsLoop : List Int → List Int → Int
  | [], [] => 0
  | [], os => if allZero os then 0 else -1
  | ss, [] => if allZero ss then 0 else 1
  | s :: ss, o :: os =>
    if s = o then compareSegmentsLoop ss os
    else if s < o then -1 else 1

/-- Modelled from the spec: go-version `Version.Compare`: equal versions
compare 0; equal segments fall through to prerelease comparison where an
absent prerelease sorts above a present one; otherwise the segments
decide. -/
def GoVersion.compare (v o : GoVersion) : Int :=
  if v = o then 0
  else if v.segments = o.segments then
    if v.pre = "" ∧ o.pre = "" then 0
    else if v.pre = "" then 1
    else if o.pre = "" then -1
    else comparePrereleases v.pre o.pre
  else compareSegmentsLoop v.segments o.segments

/-- Modelled from the spec: go-version `GreaterThanOrEqual`. -/
def GoVersion.greaterThanOrEqual (v o : GoVersion) : Bool :=
  v.compare o ≥ 0

/-- `Checker.detectUpdateType` (internal/version): requires at least
major.minor.patch on both sides, then classifies by the first component that
is strictly larger in the latest version. -/
def detectUpdateType (current latest : GoVersion) : UpdateType :=
  match current.segments, latest.segments with
  | c0 :: c1 :: c2 :: _, l0 :: l1 :: l2 :: _ =>
    if l0 > c0 then UpdateType.major
    else if l0 = c0 ∧ l1 > c1 then UpdateType.minor
    else if l0 = c0 ∧ l1 = c1 ∧ l2 > c2 then UpdateType.patch
    else UpdateType.unknown
  | _, _ => UpdateType.unknown

/-- `Checker.shouldUpdate` (internal/version): no update when current is
already at or above latest; otherwise the patchOnly / minorOnly policies
require the leading components to agree, and fewer than three segments on
either side always allows the update. -/
def shouldUpdate (patchOnly minorOnly : Bool) (current latest : GoVersion) : Bool :=
  if current.greaterThanOrEqual latest then false
  else
    match current.segments, latest.segments with
    | c0 :: c1 :: _ :: _, l0 :: l1 :: _ :: _ =>
      if patchOnly then decide (c0 = l0) && decide (c1 = l1)
      else if minorOnly then decide (c0 = l0)
      else true
    | _, _ => true

/-- Major component of a version, as read by the checker (index 0). -/
def segMajor (v : GoVersion) : Int := v.segments.getD 0 0

/-- Minor component of a version, as read by the checker (index 1). -/
def segMinor (v : GoVersion) : Int := v.segments.getD 1 0

/-- Single-quote character used in rendered replacement reasons. -/
def sq : String := String.singleton (Char.ofNat 39)

/-- `terraform.ResourceChange` (internal/terraform): one detailed change from
the plan, with its action set and optional replacement triggers. -/
structure ResourceChange where
  Address : String
  ResourceType : String
  Action : List String
  ReplaceTriggers : List String
deriving DecidableEq

/-- `terraform.PlanResult`, restricted to the field read by
`AnalyzeResourceChanges` (the other fields — Success, Output, counters — do
not feed the resource-change summary). -/
structure PlanResult where
  DetailedChanges : List ResourceChange
deriving DecidableEq

/-- `version.ResourceChange` (internal/version): the itemized record stored
in the summary, with the action list joined into one string. -/
structure ResourceChangeItem where
  Address : String
  ResourceType : String
  Action : String
  Reason : String
deriving DecidableEq

/-- `version.ResourceChangesSummary` (internal/version). -/
structure ResourceChangesSummary where
  HasChanges : Bool
  ResourcesToReplace : List ResourceChangeItem
  ResourcesToDelete : List ResourceChangeItem
  ResourcesToModify : List ResourceChangeItem
  TotalReplace : Nat
  TotalDelete : Nat
  TotalModify : Nat
deriving DecidableEq

/-- The bucket a plan record falls into. -/
inductive ChangeKind where
  | replace
  | delete
  | modify
deriving DecidableEq

/-- Per-record classification logic of `AnalyzeResourceChanges`
(internal/terraform/analyzer.go): the action flags are collected from the
action set; create together with delete is a replace, otherwise delete alone
is a delete, otherwise update is a modify, otherwise the record is
ignored. -/
def classifyChange (change : ResourceChange) : Option ChangeKind :=
  let hasCreate := change.Action.contains "create"
  let hasDelete := change.Action.contains "delete"
  let isUpdate := change.Action.contains "update"
  if hasCreate && hasDelete then some ChangeKind.replace
  else if hasDelete then some ChangeKind.delete
  else if isUpdate then some ChangeKind.modify
  else none

/-- `buildChangeReason` (internal/terraform/analyzer.go). -/
def buildChangeReason (change : ResourceChange) : String :=
  match change.ReplaceTriggers with
  | [] => "Module update requires resource replacement"
  | [t] => "Attribute " ++ sq ++ t ++ sq ++ " requires replacement"
  | ts => "Attributes " ++ String.intercalate ", " ts ++ " require replacement"

/-- Conversion of a plan record into the summary's itemized record, as built
inside the `AnalyzeResourceChanges` loop. -/
def toResourceChangeItem (change : ResourceChange) : ResourceChangeItem :=
  { Address := change.Address
    ResourceType := change.ResourceType
    Action := String.intercalate ", " change.Action
    Reason := buildChangeReason change }

/-- The no-changes summary returned for a nil plan or an empty change
list. -/
def emptySummary : ResourceChangesSummary :=
  { HasChanges := false
    ResourcesToReplace := []
    ResourcesToDelete := []
    ResourcesToModify := []
    TotalReplace := 0
    TotalDelete := 0
    TotalModify := 0 }

/-- `AnalyzeResourceChanges` (internal/terraform/analyzer.go): a nil plan or
empty change list yields the no-changes summary; otherwise HasChanges is set
and every record is routed to at most one bucket (each bucket list collects
the records classified into it, in input order, and each counter counts
them). -/
def AnalyzeResourceChanges (planResult : Option PlanResult) : ResourceChangesSummary :=
  match planResult with
  | none => emptySummary
  | some p =>
    if p.DetailedChanges.length = 0 then emptySummary
    else
      let repl := (p.DetailedChanges.filter
        fun ch => classifyChange ch = some ChangeKind.replace).map toResourceChangeItem
      let del := (p.DetailedChanges.filter
        fun ch => classifyChange ch = some ChangeKind.delete).map toResourceChangeItem
      let mo := (p.DetailedChanges.filter
        fun ch => classifyChange ch = some ChangeKind.modify).map toResourceChangeItem
      { HasChanges := true
        ResourcesToReplace := repl
        ResourcesToDelete := del
        ResourcesToModify := mo
        TotalReplace := repl.length
        TotalDelete := del.length
        TotalModify := mo.length }

/-- `HasCriticalChanges` (internal/terraform/analyzer.go): replacements and
deletions are critical, a nil summary is not. -/
def HasCriticalChanges (summary : Option ResourceChangesSummary) : Bool :=
  match summary with
  | none => false
  | some s => s.TotalReplace > 0 || s.TotalDelete > 0

/-- Lookup in an association-list model of a Go map (first binding wins;
a Go map never holds two bindings for one key). -/
def mapLookup {α : Type} : List (String × α) → String → Option α
  | [], _ => none
  | (k', v) :: rest, k => if k' = k then some v else mapLookup rest k

/-- Insertion in the association-list model of a Go map: replace the
existing binding or append a new one. -/
def mapInsert {α : Type} : List (String × α) → String → α → List (String × α)
  | [], k, v => [(k, v)]
  | (k', v') :: rest, k, v =>
    if k' = k then (k, v) :: rest else (k', v') :: mapInsert rest k v

lemma mem_of_mapLookup_eq_some {α : Type} {m : List (String × α)} {k : String} {v : α}
    (h : mapLookup m k = some v) : (k, v) ∈ m := by
  induction m with
  | nil => simp [mapLookup] at h
  | cons p rest ih =>
    rcases p with ⟨k', v'⟩
    by_cases hk : k' = k
    · subst hk
      simp [mapLookup] at h
      simp [h]
    · simp [mapLookup, hk] at h
      exact List.mem_cons_of_mem _ (ih h)

lemma not_mem_of_mapLookup_eq_none {α : Type} {m : List (String × α)} {k : String} {v : α}
    (h : mapLookup m k = none) : (k, v) ∉ m := by
  induction m with
  | nil => simp
  | cons p rest ih =>
    rcases p with ⟨k', v'⟩
    by_cases hk : k' = k
    · subst hk
      simp [mapLookup] at h
    · simp [mapLookup, hk] at h
      intro hmem
      rcases List.mem_cons.mp hmem with heq | hmem
      · exact hk (congrArg Prod.fst heq).symm
      · exact ih h hmem

lemma mapLookup_eq_some_of_mem_nodup {α : Type} {m : List (String × α)} {k : String} {v : α}
    (hn : (m.map Prod.fst).Nodup) (hm : (k, v) ∈ m) : mapLookup m k = some v := by
  induction m with
  | nil => simp at hm
  | cons p rest ih =>
    rcases p with ⟨k', v'⟩
    rcases List.mem_cons.mp hm with heq | hmem
    · rw [← heq]
      simp [mapLookup]
    · have hk : k' ≠ k := by
        intro hkk
        subst hkk
        have : k' ∈ rest.map Prod.fst := List.mem_map.mpr ⟨(k', v), hmem, rfl⟩
        exact (List.nodup_cons.mp hn).1 this
      simp only [mapLookup, hk, if_false]
      exact ih (List.nodup_cons.mp hn).2 hmem

lemma mapLookup_mapInsert_self {α : Type} (m : List (String × α)) (k : String) (v : α) :
    mapLookup (mapInsert m k v) k = some v := by
  induction m with
  | nil => simp [mapInsert, mapLookup]
  | cons p rest ih =>
    rcases p with ⟨k', v'⟩
    by_cases hk : k' = k
    · simp [mapInsert, mapLookup, hk]
    · simp [mapInsert, mapLookup, hk, ih]

/-- The three classification filters are mutually exclusive, so their
combined size never exceeds the input. -/
lemma classify_filter_sum_le (l : List ResourceChange) :
    (l.filter fun ch => classifyChange ch = some ChangeKind.replace).length +
    (l.filter fun ch => classifyChange ch = some ChangeKind.delete).length +
    (l.filter fun ch => classifyChange ch = some ChangeKind.modify).length ≤
    l.length := by
  induction l with
  | nil => simp
  | cons x xs ih =>
    rcases h : classifyChange x with _ | k
    · simp only [List.filter_cons, h]
      simp
      omega
    · cases k <;> simp only [List.filter_cons, h] <;> simp <;> omega

end Terranovate

namespace Terranovate

/-- C10: the replace / delete / modify buckets are mutually exclusive with
precedence replace before delete before modify: a record with both create
and delete is classified replace (whatever else it contains), a record with
delete but no create is classified delete and never modify, and the three
counters (equal to the itemized list lengths) sum to at most the number of
input records. -/
theorem resourceBuckets_exclusive :
    (∀ ch : ResourceChange, ch.Action.contains "create" = true →
      ch.Action.contains "delete" = true →
      classifyChange ch = some ChangeKind.replace) ∧
    (∀ ch : ResourceChange, ch.Action.contains "create" = false →
      ch.Action.contains "delete" = true →
      classifyChange ch = some ChangeKind.delete) ∧
    (∀ p : PlanResult,
      (AnalyzeResourceChanges (some p)).TotalReplace +
      (AnalyzeResourceChanges (some p)).TotalDelete +
      (AnalyzeResourceChanges (some p)).TotalModify ≤ p.DetailedChanges.length) ∧
    (∀ p : PlanResult,
      (AnalyzeResourceChanges (some p)).ResourcesToReplace.length +
      (AnalyzeResourceChanges (some p)).ResourcesToDelete.length +
      (AnalyzeResourceChanges (some p)).ResourcesToModify.length ≤
      p.DetailedChanges.length) := by
  refine ⟨?_, ?_, ?_, ?_⟩
  · intro ch h1 h2
    have h1m : "create" ∈ ch.Action := by simpa using h1
    have h2m : "delete" ∈ ch.Action := by simpa using h2
    simp [classifyChange, h1m, h2m]
  · intro ch h1 h2
    have h1m : "create" ∉ ch.Action := by simpa using h1
    have h2m : "delete" ∈ ch.Action := by simpa using h2
    simp [classifyChange, h1m, h2m]
  · intro p
    simp only [AnalyzeResourceChanges]
    split
    · simp [emptySummary]
    · simpa using classify_filter_sum_le p.DetailedChanges
  · intro p
    simp only [AnalyzeResourceChanges]
    split
    · simp [emptySummary]
    · simpa using classify_filter_sum_le p.DetailedChanges

/-- Witness for C10: a record with create, delete and update is classified
replace only. -/
theorem resourceBuckets_exclusive_witness :
    classifyChange ⟨"aws_vpc.main", "aws_vpc", ["delete", "create", "update"], []⟩ =
      some ChangeKind.replace :=
  resourceBuckets_exclusive.1
    ⟨"aws_vpc.main", "aws_vpc", ["delete", "create", "update"], []⟩
    (by decide) (by decide)

/-- A plan with a single create-only record, used to refute the claimed
hasChanges semantics. -/
def createOnlyPlan : PlanResult :=
  ⟨[⟨"aws_instance.web", "aws_instance", ["create"], []⟩]⟩

/-- Counterexample for C4: on a non-empty change list in which no record
carries a delete or update action, the summary still reports
HasChanges = true even though no record was classified into any bucket. -/
theorem analyzeHasChanges_createOnly :
    (AnalyzeResourceChanges (some createOnlyPlan)).HasChanges = true ∧
    (AnalyzeResourceChanges (some createOnlyPlan)).TotalReplace = 0 ∧
    (AnalyzeResourceChanges (some createOnlyPlan)).TotalDelete = 0 ∧
    (AnalyzeResourceChanges (some createOnlyPlan)).TotalModify = 0 ∧
    (AnalyzeResourceChanges (some createOnlyPlan)).ResourcesToReplace = [] ∧
    (AnalyzeResourceChanges (some createOnlyPlan)).ResourcesToDelete = [] ∧
    (AnalyzeResourceChanges (some createOnlyPlan)).ResourcesToModify = [] := by
  refine ⟨?_, ?_, ?_, ?_, ?_, ?_, ?_⟩ <;> rfl

/-- C4 (amended): the summary's HasChanges flag is true iff the plan result
is present and its change list is non-empty, independently of whether any
record was classified into a bucket. -/
theorem analyzeHasChanges_nonEmpty :
    ∀ pr : Option PlanResult,
      ((AnalyzeResourceChanges pr).HasChanges = true ↔
        ∃ p, pr = some p ∧ p.DetailedChanges ≠ []) := by
  intro pr
  cases pr with
  | none => simp [AnalyzeResourceChanges, emptySummary]
  | some p =>
    simp only [AnalyzeResourceChanges]
    by_cases h : p.DetailedChanges.length = 0
    · simp only [h, if_true, emptySummary]
      simp [List.length_eq_zero.mp h]
    · simp only [h, if_false]
      constructor
      · intro _
        exact ⟨p, rfl, fun hnil => h (by simp [hnil])⟩
      · intro _
        trivial

end Terranovate

namespace Terranovate

/-- C2: for versions with at least three numeric segments the update type is
major when latest's major component is greater, minor when the majors agree
and latest's minor is greater, patch when major and minor agree and latest's
patch is greater, and unknown in every other case (including full equality);
with fewer than three segments on either side it is unknown. -/
theorem detectUpdateType_classification :
    (∀ (cp lp : String) (c0 c1 c2 l0 l1 l2 : Int) (cs ls : List Int),
      detectUpdateType ⟨c0 :: c1 :: c2 :: cs, cp⟩ ⟨l0 :: l1 :: l2 :: ls, lp⟩ =
        if c0 < l0 then UpdateType.major
        else if c0 = l0 ∧ c1 < l1 then UpdateType.minor
        else if c0 = l0 ∧ c1 = l1 ∧ c2 < l2 then UpdateType.patch
        else UpdateType.unknown) ∧
    (∀ current latest : GoVersion,
      current.segments.length < 3 ∨ latest.segments.length < 3 →
      detectUpdateType current latest = UpdateType.unknown) := by
  constructor
  · intro cp lp c0 c1 c2 l0 l1 l2 cs ls
    simp only [detectUpdateType, gt_iff_lt, eq_comm]
  · intro current latest h
    rcases current with ⟨cs, cp⟩
    rcases latest with ⟨ls, lp⟩
    simp only [detectUpdateType]
    rcases cs with _ | ⟨c0, _ | ⟨c1, _ | ⟨c2, cs⟩⟩⟩ <;>
      rcases ls with _ | ⟨l0, _ | ⟨l1, _ | ⟨l2, ls⟩⟩⟩ <;>
      simp_all <;> omega

/-- Witness for C2: a two-segment current version yields unknown. -/
theorem detectUpdateType_classification_witness :
    detectUpdateType ⟨[5, 0], ""⟩ ⟨[6, 0, 0], ""⟩ = UpdateType.unknown :=
  detectUpdateType_classification.2 ⟨[5, 0], ""⟩ ⟨[6, 0, 0], ""⟩ (Or.inl (by decide))

/-- C3: the outdated decision is false whenever current is at or above
latest by semantic-version precedence; otherwise with at least three
segments on both sides, patchOnly allows the update exactly when major and
minor agree, minorOnly (without patchOnly) exactly when the majors agree,
and without a policy restriction the update is always allowed; with fewer
than three segments on either side it is allowed regardless of policy. -/
theorem shouldUpdate_policy :
    (∀ (po mo : Bool) (c l : GoVersion),
      c.greaterThanOrEqual l = true → shouldUpdate po mo c l = false) ∧
    (∀ (po mo : Bool) (c l : GoVersion),
      c.greaterThanOrEqual l = false →
      c.segments.length < 3 ∨ l.segments.length < 3 →
      shouldUpdate po mo c l = true) ∧
    (∀ (mo : Bool) (c l : GoVersion),
      c.greaterThanOrEqual l = false →
      3 ≤ c.segments.length → 3 ≤ l.segments.length →
      (shouldUpdate true mo c l = true ↔
        (segMajor c = segMajor l ∧ segMinor c = segMinor l))) ∧
    (∀ (c l : GoVersion),
      c.greaterThanOrEqual l = false →
      3 ≤ c.segments.length → 3 ≤ l.segments.length →
      (shouldUpdate false true c l = true ↔ segMajor c = segMajor l)) ∧
    (∀ (c l : GoVersion),
      c.greaterThanOrEqual l = false → shouldUpdate false false c l = true) := by
  refine ⟨?_, ?_, ?_, ?_, ?_⟩
  · intro po mo c l h
    simp [shouldUpdate, h]
  · intro po mo c l h hlen
    rcases c with ⟨cs, cp⟩
    rcases l with ⟨ls, lp⟩
    simp only [shouldUpdate, h, Bool.false_eq_true, if_false]
    rcases cs with _ | ⟨c0, _ | ⟨c1, _ | ⟨c2, cs⟩⟩⟩ <;>
      rcases ls with _ | ⟨l0, _ | ⟨l1, _ | ⟨l2, ls⟩⟩⟩ <;>
      simp_all <;> omega
  · intro mo c l h hc hl
    rcases c with ⟨cs, cp⟩
    rcases l with ⟨ls, lp⟩
    rcases cs with _ | ⟨c0, _ | ⟨c1, _ | ⟨c2, cs⟩⟩⟩ <;>
      rcases ls with _ | ⟨l0, _ | ⟨l1, _ | ⟨l2, ls⟩⟩⟩ <;>
      simp_all [shouldUpdate, segMajor, segMinor]
  · intro c l h hc hl
    rcases c with ⟨cs, cp⟩
    rcases l with ⟨ls, lp⟩
    rcases cs with _ | ⟨c0, _ | ⟨c1, _ | ⟨c2, cs⟩⟩⟩ <;>
      rcases ls with _ | ⟨l0, _ | ⟨l1, _ | ⟨l2, ls⟩⟩⟩ <;>
      simp_all [shouldUpdate, segMajor, segMinor]
  · intro c l h
    rcases c with ⟨cs, cp⟩
    rcases l with ⟨ls, lp⟩
    simp only [shouldUpdate, h, Bool.false_eq_true, if_false]
    rcases cs with _ | ⟨c0, _ | ⟨c1, _ | ⟨c2, cs⟩⟩⟩ <;>
      rcases ls with _ | ⟨l0, _ | ⟨l1, _ | ⟨l2, ls⟩⟩⟩ <;>
      simp

/-- Witness for C3: patchOnly accepts 5.0.0 to 5.0.1 and the decision
matches the component test; equal versions are never outdated. -/
theorem shouldUpdate_policy_witness :
    shouldUpdate true false ⟨[5, 0, 0], ""⟩ ⟨[5, 0, 0], ""⟩ = false :=
  shouldUpdate_policy.1 true false ⟨[5, 0, 0], ""⟩ ⟨[5, 0, 0], ""⟩ (by decide)

end Terranovate

namespace Terranovate

/-- `terraform.Variable` (schema comparator): a module input variable.  The
Go field `Type` is rendered here as `VarType`; the unused `Default` field is
omitted (the comparator never reads it). -/
structure Variable where
  VarType : String
  Description : String
  Required : Bool
deriving DecidableEq

/-- `terraform.Output` (schema comparator): a module output. -/
structure Output where
  Description : String
deriving DecidableEq

/-- `terraform.ModuleSchema`: variable and output maps, modelled as
association lists keyed by name. -/
structure ModuleSchema where
  Variables : List (String × Variable)
  Outputs : List (String × Output)
deriving DecidableEq

/-- `terraform.VariableChange` (Go field `Type` rendered as `VarType`). -/
structure VariableChange where
  Name : String
  VarType : String
  Required : Bool
  Description : String
deriving DecidableEq

/-- `terraform.OutputChange`. -/
structure OutputChange where
  Name : String
  Description : String
deriving DecidableEq

/-- `terraform.SchemaChanges`. -/
structure SchemaChanges where
  HasChanges : Bool
  AddedRequiredVars : List VariableChange
  RemovedVars : List VariableChange
  ChangedVarTypes : List VariableChange
  RemovedOutputs : List OutputChange
  AddedOutputs : List OutputChange
deriving DecidableEq

/-- The empty change set that `compareSchemaStructures` starts from and
returns unchanged when either snapshot is nil. -/
def emptySchemaChanges : SchemaChanges :=
  { HasChanges := false
    AddedRequiredVars := []
    RemovedVars := []
    ChangedVarTypes := []
    RemovedOutputs := []
    AddedOutputs := [] }

/-- `SchemaComparator.compareSchemaStructures` (internal/terraform): walks
the latest variables recording new required variables and changed types,
then the current variables recording removals, then the outputs recording
removals and (informational) additions; HasChanges is raised by every
append except the added-output one. -/
def compareSchemaStructures (current latest : Option ModuleSchema) : SchemaChanges :=
  match current, latest with
  | some c, some l =>
    let added := l.Variables.filterMap fun p =>
      match mapLookup c.Variables p.1 with
      | none =>
        if p.2.Required then
          some { Name := p.1, VarType := p.2.VarType, Required := true
                 Description := p.2.Description }
        else none
      | some _ => none
    let changed := l.Variables.filterMap fun p =>
      match mapLookup c.Variables p.1 with
      | some cv =>
        if cv.VarType ≠ p.2.VarType then
          some { Name := p.1, VarType := cv.VarType ++ " → " ++ p.2.VarType
                 Required := false, Description := p.2.Description }
        else none
      | none => none
    let removed := c.Variables.filterMap fun p =>
      match mapLookup l.Variables p.1 with
      | none =>
        some { Name := p.1, VarType := p.2.VarType, Required := p.2.Required
               Description := p.2.Description }
      | some _ => none
    let removedOut := c.Outputs.filterMap fun p =>
      match mapLookup l.Outputs p.1 with
      | none => some { Name := p.1, Description := p.2.Description }
      | some _ => none
    let addedOut := l.Outputs.filterMap fun p =>
      match mapLookup c.Outputs p.1 with
      | none => some { Name := p.1, Description := p.2.Description }
      | some _ => none
    { HasChanges := !added.isEmpty || !changed.isEmpty || !removed.isEmpty ||
        !removedOut.isEmpty
      AddedRequiredVars := added
      RemovedVars := removed
      ChangedVarTypes := changed
      RemovedOutputs := removedOut
      AddedOutputs := addedOut }
  | _, _ => emptySchemaChanges

/-- `HasBreakingSchemaChanges` (internal/terraform): breaking iff one of the
four breaking categories is non-empty; a nil change set is not breaking. -/
def HasBreakingSchemaChanges (changes : Option SchemaChanges) : Bool :=
  match changes with
  | none => false
  | some c =>
    decide (c.AddedRequiredVars.length > 0) || decide (c.RemovedVars.length > 0) ||
    decide (c.ChangedVarTypes.length > 0) || decide (c.RemovedOutputs.length > 0)

end Terranovate

namespace Terranovate

/-- C5: with Go-map key uniqueness where needed, a variable new in latest is
recorded as added-required-variable exactly when it is required (a new
non-required variable lands in no variable-change list); a variable in both
snapshots with differing declared type is recorded as changed-variable-type;
a variable only in current as removed-variable; an output only in current as
removed-output; an output new in latest as added-output; HasChanges is true
iff one of the four breaking categories is non-empty (added outputs never
raise it); and a nil snapshot on either side yields the empty, non-breaking
result. -/
theorem compareSchemaStructures_correct :
    (∀ co lo : Option ModuleSchema,
      (compareSchemaStructures co lo).HasChanges =
        HasBreakingSchemaChanges (some (compareSchemaStructures co lo))) ∧
    (∀ (c l : ModuleSchema) (n : String) (v : Variable),
      (l.Variables.map Prod.fst).Nodup →
      mapLookup l.Variables n = some v →
      mapLookup c.Variables n = none →
      ((v.Required = true →
        n ∈ (compareSchemaStructures (some c) (some l)).AddedRequiredVars.map
          VariableChange.Name) ∧
       (v.Required = false →
        n ∉ (compareSchemaStructures (some c) (some l)).AddedRequiredVars.map
          VariableChange.Name ∧
        n ∉ (compareSchemaStructures (some c) (some l)).ChangedVarTypes.map
          VariableChange.Name ∧
        n ∉ (compareSchemaStructures (some c) (some l)).RemovedVars.map
          VariableChange.Name))) ∧
    (∀ (c l : ModuleSchema) (n : String) (cv lv : Variable),
      (n, lv) ∈ l.Variables →
      mapLookup c.Variables n = some cv →
      cv.VarType ≠ lv.VarType →
      n ∈ (compareSchemaStructures (some c) (some l)).ChangedVarTypes.map
        VariableChange.Name) ∧
    (∀ (c l : ModuleSchema) (n : String) (cv : Variable),
      (n, cv) ∈ c.Variables →
      mapLookup l.Variables n = none →
      n ∈ (compareSchemaStructures (some c) (some l)).RemovedVars.map
        VariableChange.Name) ∧
    (∀ (c l : ModuleSchema) (n : String) (o : Output),
      (n, o) ∈ c.Outputs →
      mapLookup l.Outputs n = none →
      n ∈ (compareSchemaStructures (some c) (some l)).RemovedOutputs.map
        OutputChange.Name) ∧
    (∀ (c l : ModuleSchema) (n : String) (o : Output),
      (n, o) ∈ l.Outputs →
      mapLookup c.Outputs n = none →
      n ∈ (compareSchemaStructures (some c) (some l)).AddedOutputs.map
        OutputChange.Name) ∧
    (∀ lo : Option ModuleSchema, compareSchemaStructures none lo = emptySchemaChanges) ∧
    (∀ co : Option ModuleSchema, compareSchemaStructures co none = emptySchemaChanges) ∧
    HasBreakingSchemaChanges (some emptySchemaChanges) = false := by
  have hlem : ∀ {α : Type} (x : List α), (!x.isEmpty) = decide (x.length > 0) := by
    intro α x
    cases x <;> simp
  have hor : ∀ a b c d : Bool, (a || b || c || d) = (a || c || b || d) := by decide
  refine ⟨?_, ?_, ?_, ?_, ?_, ?_, ?_, ?_, ?_⟩
  · intro co lo
    rcases co with _ | c
    · rfl
    rcases lo with _ | l
    · rfl
    simp only [compareSchemaStructures, HasBreakingSchemaChanges, hlem]
    exact hor _ _ _ _
  · intro c l n v hn hlv hcn
    constructor
    · intro hreq
      apply List.mem_map.mpr
      refine ⟨⟨n, v.VarType, true, v.Description⟩, ?_, rfl⟩
      simp only [compareSchemaStructures]
      apply List.mem_filterMap.mpr
      exact ⟨(n, v), mem_of_mapLookup_eq_some hlv, by simp [hcn, hreq]⟩
    · intro hreq
      refine ⟨?_, ?_, ?_⟩
      · intro hmem
        rcases List.mem_map.mp hmem with ⟨rec, hrecmem, hname⟩
        simp only [compareSchemaStructures] at hrecmem
        rcases List.mem_filterMap.mp hrecmem with ⟨⟨n', v'⟩, hpm, hf⟩
        rcases hl : mapLookup c.Variables n' with _ | cv
        · simp only [hl] at hf
          by_cases hr : v'.Required = true
          · simp only [hr, if_true, Option.some.injEq] at hf
            have hn' : n' = n := by
              rw [← hname, ← hf]
            have hsome : mapLookup l.Variables n = some v' := by
              rw [← hn']
              exact mapLookup_eq_some_of_mem_nodup hn hpm
            rw [hlv] at hsome
            have hv : v = v' := Option.some.inj hsome
            rw [← hv] at hr
            rw [hreq] at hr
            exact Bool.false_ne_true hr
          · simp [hr] at hf
        · simp [hl] at hf
      · intro hmem
        rcases List.mem_map.mp hmem with ⟨rec, hrecmem, hname⟩
        simp only [compareSchemaStructures] at hrecmem
        rcases List.mem_filterMap.mp hrecmem with ⟨⟨n', v'⟩, hpm, hf⟩
        rcases hl : mapLookup c.Variables n' with _ | cv
        · simp [hl] at hf
        · simp only [hl] at hf
          by_cases hne : cv.VarType = v'.VarType
          · simp [hne] at hf
          · simp only [ne_eq, hne, not_false_iff, if_true, Option.some.injEq] at hf
            have hn' : n' = n := by
              rw [← hname, ← hf]
            rw [hn'] at hl
            rw [hcn] at hl
            exact Option.noConfusion hl
      · intro hmem
        rcases List.mem_map.mp hmem with ⟨rec, hrecmem, hname⟩
        simp only [compareSchemaStructures] at hrecmem
        rcases List.mem_filterMap.mp hrecmem with ⟨⟨n', v'⟩, hpm, hf⟩
        rcases hl : mapLookup l.Variables n' with _ | lv
        · simp only [hl, Option.some.injEq] at hf
          have hn' : n' = n := by
            rw [← hname, ← hf]
          rw [hn'] at hpm
          exact not_mem_of_mapLookup_eq_none hcn hpm
        · simp [hl] at hf
  · intro c l n cv lv hmem hlook hne
    apply List.mem_map.mpr
    refine ⟨⟨n, cv.VarType ++ " → " ++ lv.VarType, false, lv.Description⟩, ?_, rfl⟩
    simp only [compareSchemaStructures]
    apply List.mem_filterMap.mpr
    exact ⟨(n, lv), hmem, by simp [hlook, hne]⟩
  · intro c l n cv hmem hlook
    apply List.mem_map.mpr
    refine ⟨⟨n, cv.VarType, cv.Required, cv.Description⟩, ?_, rfl⟩
    simp only [compareSchemaStructures]
    apply List.mem_filterMap.mpr
    exact ⟨(n, cv), hmem, by simp [hlook]⟩
  · intro c l n o hmem hlook
    apply List.mem_map.mpr
    refine ⟨⟨n, o.Description⟩, ?_, rfl⟩
    simp only [compareSchemaStructures]
    apply List.mem_filterMap.mpr
    exact ⟨(n, o), hmem, by simp [hlook]⟩
  · intro c l n o hmem hlook
    apply List.mem_map.mpr
    refine ⟨⟨n, o.Description⟩, ?_, rfl⟩
    simp only [compareSchemaStructures]
    apply List.mem_filterMap.mpr
    exact ⟨(n, o), hmem, by simp [hlook]⟩
  · intro lo
    rcases lo with _ | l <;> rfl
  · intro co
    rcases co with _ | c <;> rfl
  · rfl

end Terranovate

namespace Terranovate

/-- Current snapshot of the schema-comparison example (one required
variable, one output). -/
def exampleCurrentSchema : ModuleSchema :=
  { Variables := [("vpc_cidr", { VarType := "string", Description := "", Required := true })]
    Outputs := [("vpc_id", { Description := "" })] }

/-- Latest snapshot of the schema-comparison example (one new required
variable, one new output). -/
def exampleLatestSchema : ModuleSchema :=
  { Variables := [("vpc_cidr", { VarType := "string", Description := "", Required := true }),
                  ("availability_zone", { VarType := "string", Description := "", Required := true })]
    Outputs := [("vpc_id", { Description := "" }), ("subnet_ids", { Description := "" })] }

/-- Witness for C5: the new required variable of the example is recorded as
an added-required-variable. -/
theorem compareSchemaStructures_correct_witness :
    "availability_zone" ∈
      (compareSchemaStructures (some exampleCurrentSchema)
        (some exampleLatestSchema)).AddedRequiredVars.map VariableChange.Name :=
  (compareSchemaStructures_correct.2.1 exampleCurrentSchema exampleLatestSchema
      "availability_zone" { VarType := "string", Description := "", Required := true }
      (by decide) (by decide) (by decide)).1 rfl

/-- `cache.CacheEntry` (internal/cache): a cached tag list with its capture
time and time-to-live.  Times and durations are modelled as integers
(nanoseconds in Go). -/
structure CacheEntry where
  Repository : String
  Tags : List String
  CachedAt : Int
  TTL : Int
deriving DecidableEq

/-- `cache.RepositoryCache` (internal/cache): the guarded entry map plus
configuration.  The mutex has no observable state; the disk directory is
irrelevant to Get/Set logic. -/
structure RepositoryCache where
  entries : List (String × CacheEntry)
  ttl : Int
  memoryOnly : Bool
deriving DecidableEq

/-- `RepositoryCache.Get` (internal/cache): reads the entry map at an
explicit current time, returning the possibly-updated cache alongside the
Go return values `(tags, found)`; the body only reads, so the cache comes
back unchanged.  A missing key and an entry older than its TTL (strictly)
both report not-found, and the expired entry is left in place. -/
def RepositoryCache.Get (c : RepositoryCache) (now : Int) (repo : String) :
    RepositoryCache × Option (List String) × Bool :=
  match mapLookup c.entries repo with
  | none => (c, none, false)
  | some entry =>
    if now - entry.CachedAt > entry.TTL then (c, none, false)
    else (c, some entry.Tags, true)

/-- `RepositoryCache.Set` (internal/cache): stores a fresh entry stamped at
the explicit current time with the cache-wide TTL, overwriting any previous
binding for the key (the asynchronous disk save has no effect on the entry
map). -/
def RepositoryCache.Set (c : RepositoryCache) (now : Int) (repo : String)
    (tags : List String) : RepositoryCache :=
  let entry : CacheEntry :=
    { Repository := repo, Tags := tags, CachedAt := now, TTL := c.ttl }
  { c with entries := mapInsert c.entries repo entry }

end Terranovate

namespace Terranovate

/-- C6: Get reports not-found when the key is absent or the entry is older
than its TTL (strictly), and otherwise returns exactly the stored tag list;
a Set followed immediately by a Get with positive TTL finds the same tags,
and a Get after more than the TTL has elapsed reports not-found. -/
theorem cacheGet_contract :
    (∀ (c : RepositoryCache) (now : Int) (repo : String),
      mapLookup c.entries repo = none →
      (c.Get now repo).2 = (none, false)) ∧
    (∀ (c : RepositoryCache) (now : Int) (repo : String) (e : CacheEntry),
      mapLookup c.entries repo = some e →
      now - e.CachedAt > e.TTL →
      (c.Get now repo).2 = (none, false)) ∧
    (∀ (c : RepositoryCache) (now : Int) (repo : String) (e : CacheEntry),
      mapLookup c.entries repo = some e →
      ¬(now - e.CachedAt > e.TTL) →
      (c.Get now repo).2 = (some e.Tags, true)) ∧
    (∀ (c : RepositoryCache) (now : Int) (repo : String) (tags : List String),
      0 < c.ttl →
      ((c.Set now repo tags).Get now repo).2 = (some tags, true)) ∧
    (∀ (c : RepositoryCache) (now later : Int) (repo : String) (tags : List String),
      later - now > c.ttl →
      ((c.Set now repo tags).Get later repo).2 = (none, false)) := by
  refine ⟨?_, ?_, ?_, ?_, ?_⟩
  · intro c now repo h
    simp [RepositoryCache.Get, h]
  · intro c now repo e h hexp
    simp [RepositoryCache.Get, h, hexp]
  · intro c now repo e h hexp
    simp [RepositoryCache.Get, h, hexp]
  · intro c now repo tags httl
    have h : mapLookup (c.Set now repo tags).entries repo =
        some { Repository := repo, Tags := tags, CachedAt := now, TTL := c.ttl } := by
      simp [RepositoryCache.Set, mapLookup_mapInsert_self]
    simp only [RepositoryCache.Get, h]
    have hc : ¬(now - now > c.ttl) := by omega
    rw [if_neg hc]
  · intro c now later repo tags hexp
    have h : mapLookup (c.Set now repo tags).entries repo =
        some { Repository := repo, Tags := tags, CachedAt := now, TTL := c.ttl } := by
      simp [RepositoryCache.Set, mapLookup_mapInsert_self]
    simp only [RepositoryCache.Get, h]
    rw [if_pos hexp]

/-- Witness for C6: a set followed by an immediate get finds the tags, and
a get past the TTL does not. -/
theorem cacheGet_contract_witness :
    ((RepositoryCache.Set ⟨[], 100, true⟩ 0 "hashicorp/terraform"
        ["v1.0.0", "v1.1.0"]).Get 0 "hashicorp/terraform").2 =
      (some ["v1.0.0", "v1.1.0"], true) :=
  cacheGet_contract.2.2.2.1 ⟨[], 100, true⟩ 0 "hashicorp/terraform"
    ["v1.0.0", "v1.1.0"] (by decide)

/-- C9: Get never mutates the cache: the entry map after a Get (expired
entries included) is exactly what it was before the call. -/
theorem cacheGet_pure :
    ∀ (c : RepositoryCache) (now : Int) (repo : String),
      ((c.Get now repo).1 = c) ∧ ((c.Get now repo).1.entries = c.entries) := by
  intro c now repo
  have h : (c.Get now repo).1 = c := by
    rcases hm : mapLookup c.entries repo with _ | e
    · simp [RepositoryCache.Get, hm]
    · simp only [RepositoryCache.Get, hm]
      split <;> rfl
  exact ⟨h, by rw [h]⟩

end Terranovate

namespace Terranovate

/-- `ai.BreakingChangeAnalysis` (internal/ai), also aliased `AIAnalysis`:
the advisory signal with its confidence label (only the fields read by the
core are kept; Summary and Details are display-only strings). -/
structure BreakingChangeAnalysis where
  HasBreakingChanges : Bool
  Summary : String
  Confidence : String
deriving DecidableEq

/-- The confidence-ordinal map of `shouldDisplayAIAnalysis` (cmd/check.go):
low, medium and high map to 1, 2 and 3; any other string is absent from the
map. -/
def confidenceLevel (s : String) : Option Nat :=
  if s = "low" then some 1
  else if s = "medium" then some 2
  else if s = "high" then some 3
  else none

/-- `shouldDisplayAIAnalysis` (cmd/check.go): a nil analysis always
displays; otherwise both confidence strings are mapped through the ordinal
map, defaulting to 1 (low) when the lookup fails, and the update displays
iff the actual ordinal reaches the minimum. -/
def shouldDisplayAIAnalysis (aiAnalysis : Option BreakingChangeAnalysis)
    (minConfidence : String) : Bool :=
  match aiAnalysis with
  | none => true
  | some a =>
    let minLevel := (confidenceLevel minConfidence).getD 1
    let actualLevel := (confidenceLevel a.Confidence).getD 1
    decide (actualLevel ≥ minLevel)

/-- The ordinal of a confidence string as the spec describes it: low 1,
medium 2, high 3, anything unrecognized treated as low. -/
def confOrdinal (s : String) : Nat :=
  if s = "low" then 1
  else if s = "medium" then 2
  else if s = "high" then 3
  else 1

end Terranovate

namespace Terranovate

/-- C8: an update with no advisory signal always passes the display filter;
with a signal it passes iff the ordinal of its confidence is at least the
ordinal of the configured minimum, where low, medium, high have ordinals 1,
2, 3 and any unrecognized string on either side is treated as low. -/
theorem shouldDisplayAIAnalysis_ordinal :
    (∀ minConfidence : String, shouldDisplayAIAnalysis none minConfidence = true) ∧
    (∀ (a : BreakingChangeAnalysis) (minConfidence : String),
      shouldDisplayAIAnalysis (some a) minConfidence =
        decide (confOrdinal a.Confidence ≥ confOrdinal minConfidence)) ∧
    (confOrdinal "low" = 1 ∧ confOrdinal "medium" = 2 ∧ confOrdinal "high" = 3) ∧
    (∀ s : String, s ≠ "low" → s ≠ "medium" → s ≠ "high" → confOrdinal s = 1) := by
  have hord : ∀ s : String, (confidenceLevel s).getD 1 = confOrdinal s := by
    intro s
    simp only [confidenceLevel, confOrdinal]
    split <;> [skip; split] <;> [rfl; skip; split] <;> rfl
  refine ⟨?_, ?_, ?_, ?_⟩
  · intro minConfidence
    rfl
  · intro a minConfidence
    simp only [shouldDisplayAIAnalysis, hord]
  · exact ⟨rfl, rfl, rfl⟩
  · intro s h1 h2 h3
    simp [confOrdinal, h1, h2, h3]

/-- Witness for C8: an unrecognized confidence string has ordinal 1. -/
theorem shouldDisplayAIAnalysis_ordinal_witness :
    confOrdinal "unsure" = 1 :=
  shouldDisplayAIAnalysis_ordinal.2.2.2 "unsure" (by decide) (by decide) (by decide)

end Terranovate

namespace Terranovate

/-- `version.UpdateInfo` (internal/version), restricted to the fields the
verdict logic reads and writes; the Go `SchemaChanges interface{}` field is
rendered as the tagged optional it actually holds. -/
structure UpdateInfo where
  CurrentVersion : String
  LatestVersion : String
  IsOutdated : Bool
  HasBreakingChange : Bool
  BreakingChangeDetails : String
  ChangelogURL : String
  UpdateType : Terranovate.UpdateType
  ResourceChanges : Option ResourceChangesSummary
  SchemaChanges : Option Terranovate.SchemaChanges
  AIAnalysis : Option BreakingChangeAnalysis
deriving DecidableEq

/-- The major-upgrade sentence written by `checkRegistryModule` /
`checkGitModule`. -/
def majorUpgradeSentence (cur lat : String) : String :=
  "Major version upgrade from " ++ cur ++ " to " ++ lat ++
    " may contain breaking changes. Please review the changelog carefully."

/-- The sentence written by scan.go when breaking schema changes are found
and the reason text is still empty. -/
def schemaBreakingSentence : String :=
  "This update has breaking API changes (added required variables, removed variables/outputs, or changed types)."

/-- The sentence scan.go appends when breaking schema changes are found and
the reason text is already non-empty. -/
def schemaBreakingAppendSentence : String :=
  " This update also has breaking API changes."

/-- The sentence written by scan.go when critical resource changes are found
and the reason text is still empty. -/
def criticalChangesSentence : String :=
  "This update will cause resource replacements or deletions. Please review carefully."

/-- The sentence scan.go appends when critical resource changes are found
and the reason text is already non-empty. -/
def criticalChangesAppendSentence : String :=
  " Additionally, this update will cause resource replacements or deletions."

/-- The semver-derived part of the verdict produced by
`Checker.checkRegistryModule` / `checkGitModule` (internal/version): the
breaking flag starts as (update type = major) and, when raised, the reason
text starts with the major-upgrade sentence. -/
def checkRegistryVerdict (po mo : Bool) (current latest : GoVersion)
    (curStr latStr changelog : String) : UpdateInfo :=
  { CurrentVersion := curStr
    LatestVersion := latStr
    IsOutdated := shouldUpdate po mo current latest
    HasBreakingChange := decide (detectUpdateType current latest = UpdateType.major)
    BreakingChangeDetails :=
      if detectUpdateType current latest = UpdateType.major then
        majorUpgradeSentence curStr latStr
      else ""
    ChangelogURL := changelog
    UpdateType := detectUpdateType current latest
    ResourceChanges := none
    SchemaChanges := none
    AIAnalysis := none }

/-- The AI-analysis attachment performed in `Checker.Check`
(internal/version): the advisory signal is stored on the verdict (absent or
failed analysis leaves it untouched); no other field changes. -/
def attachAIAnalysis (u : UpdateInfo) (a : Option BreakingChangeAnalysis) : UpdateInfo :=
  match a with
  | none => u
  | some x => { u with AIAnalysis := some x }

/-- The schema-comparison step of the scan command (cmd/scan.go): when a
change set was obtained it is stored, and if it is breaking the flag is
raised and the reason text is seeded or extended. -/
def applySchemaComparison (u : UpdateInfo) (sc : Option Terranovate.SchemaChanges) : UpdateInfo :=
  match sc with
  | none => u
  | some changes =>
    let u1 := { u with SchemaChanges := some changes }
    if HasBreakingSchemaChanges (some changes) then
      { u1 with HasBreakingChange := true
                BreakingChangeDetails :=
                  if u1.BreakingChangeDetails = "" then schemaBreakingSentence
                  else u1.BreakingChangeDetails ++ schemaBreakingAppendSentence }
    else u1

/-- The plan-analysis step of the scan command (cmd/scan.go): when a
successful plan is available its summary is stored, and if it is critical
the flag is raised and the reason text is seeded or extended. -/
def applyPlanAnalysis (u : UpdateInfo) (plan : Option PlanResult) : UpdateInfo :=
  match plan with
  | none => u
  | some p =>
    let summary := AnalyzeResourceChanges (some p)
    let u1 := { u with ResourceChanges := some summary }
    if HasCriticalChanges (some summary) then
      { u1 with HasBreakingChange := true
                BreakingChangeDetails :=
                  if u1.BreakingChangeDetails = "" then criticalChangesSentence
                  else u1.BreakingChangeDetails ++ criticalChangesAppendSentence }
    else u1

/-- The scan command's full verdict for one module: semver classification,
then AI attachment, then schema comparison, then plan analysis. -/
def scanVerdict (po mo : Bool) (current latest : GoVersion)
    (curStr latStr changelog : String) (a : Option BreakingChangeAnalysis)
    (sc : Option Terranovate.SchemaChanges) (plan : Option PlanResult) : UpdateInfo :=
  applyPlanAnalysis
    (applySchemaComparison
      (attachAIAnalysis (checkRegistryVerdict po mo current latest curStr latStr changelog) a)
      sc)
    plan

lemma attachAIAnalysis_HasBreakingChange (u : UpdateInfo) (a : Option BreakingChangeAnalysis) :
    (attachAIAnalysis u a).HasBreakingChange = u.HasBreakingChange := by
  cases a <;> rfl

lemma attachAIAnalysis_UpdateType (u : UpdateInfo) (a : Option BreakingChangeAnalysis) :
    (attachAIAnalysis u a).UpdateType = u.UpdateType := by
  cases a <;> rfl

lemma attachAIAnalysis_SchemaChanges (u : UpdateInfo) (a : Option BreakingChangeAnalysis) :
    (attachAIAnalysis u a).SchemaChanges = u.SchemaChanges := by
  cases a <;> rfl

lemma attachAIAnalysis_ResourceChanges (u : UpdateInfo) (a : Option BreakingChangeAnalysis) :
    (attachAIAnalysis u a).ResourceChanges = u.ResourceChanges := by
  cases a <;> rfl

lemma attachAIAnalysis_AIAnalysis (u : UpdateInfo) (a : Option BreakingChangeAnalysis)
    (h : u.AIAnalysis = none) : (attachAIAnalysis u a).AIAnalysis = a := by
  cases a with
  | none => exact h
  | some x => rfl

lemma applySchemaComparison_HasBreakingChange (u : UpdateInfo)
    (sc : Option Terranovate.SchemaChanges) :
    (applySchemaComparison u sc).HasBreakingChange =
      (u.HasBreakingChange || HasBreakingSchemaChanges sc) := by
  rcases sc with _ | s
  · simp [applySchemaComparison, HasBreakingSchemaChanges]
  · simp only [applySchemaComparison]
    by_cases h : HasBreakingSchemaChanges (some s) = true
    · simp [h]
    · rw [Bool.not_eq_true] at h
      simp [h]

lemma applySchemaComparison_UpdateType (u : UpdateInfo)
    (sc : Option Terranovate.SchemaChanges) :
    (applySchemaComparison u sc).UpdateType = u.UpdateType := by
  rcases sc with _ | s
  · rfl
  · simp only [applySchemaComparison]
    split <;> rfl

lemma applySchemaComparison_SchemaChanges (u : UpdateInfo)
    (sc : Option Terranovate.SchemaChanges) :
    (applySchemaComparison u sc).SchemaChanges =
      (match sc with | none => u.SchemaChanges | some s => some s) := by
  rcases sc with _ | s
  · rfl
  · simp only [applySchemaComparison]
    split <;> rfl

lemma applySchemaComparison_ResourceChanges (u : UpdateInfo)
    (sc : Option Terranovate.SchemaChanges) :
    (applySchemaComparison u sc).ResourceChanges = u.ResourceChanges := by
  rcases sc with _ | s
  · rfl
  · simp only [applySchemaComparison]
    split <;> rfl

lemma applySchemaComparison_AIAnalysis (u : UpdateInfo)
    (sc : Option Terranovate.SchemaChanges) :
    (applySchemaComparison u sc).AIAnalysis = u.AIAnalysis := by
  rcases sc with _ | s
  · rfl
  · simp only [applySchemaComparison]
    split <;> rfl

lemma applyPlanAnalysis_HasBreakingChange (u : UpdateInfo) (plan : Option PlanResult) :
    (applyPlanAnalysis u plan).HasBreakingChange =
      (u.HasBreakingChange ||
        HasCriticalChanges (plan.map fun p => AnalyzeResourceChanges (some p))) := by
  rcases plan with _ | p
  · simp [applyPlanAnalysis, HasCriticalChanges]
  · simp only [applyPlanAnalysis, Option.map_some]
    by_cases h : HasCriticalChanges (some (AnalyzeResourceChanges (some p))) = true
    · simp [h]
    · rw [Bool.not_eq_true] at h
      simp [h]

lemma applyPlanAnalysis_UpdateType (u : UpdateInfo) (plan : Option PlanResult) :
    (applyPlanAnalysis u plan).UpdateType = u.UpdateType := by
  rcases plan with _ | p
  · rfl
  · simp only [applyPlanAnalysis]
    split <;> rfl

lemma applyPlanAnalysis_SchemaChanges (u : UpdateInfo) (plan : Option PlanResult) :
    (applyPlanAnalysis u plan).SchemaChanges = u.SchemaChanges := by
  rcases plan with _ | p
  · rfl
  · simp only [applyPlanAnalysis]
    split <;> rfl

lemma applyPlanAnalysis_ResourceChanges (u : UpdateInfo) (plan : Option PlanResult) :
    (applyPlanAnalysis u plan).ResourceChanges =
      (match plan with
       | none => u.ResourceChanges
       | some p => some (AnalyzeResourceChanges (some p))) := by
  rcases plan with _ | p
  · rfl
  · simp only [applyPlanAnalysis]
    split <;> rfl

lemma applyPlanAnalysis_AIAnalysis (u : UpdateInfo) (plan : Option PlanResult) :
    (applyPlanAnalysis u plan).AIAnalysis = u.AIAnalysis := by
  rcases plan with _ | p
  · rfl
  · simp only [applyPlanAnalysis]
    split <;> rfl

end Terranovate

namespace Terranovate

/-- C1: the verdict's breaking flag is true exactly when the update type is
major, or the attached schema change set has a breaking category, or the
attached resource summary is critical (replace or delete count positive);
the advisory signal neither raises nor clears the flag and is attached
verbatim; and each triggering signal appends its own sentence to a
non-empty reason text, replacing it only when it is still empty. -/
theorem breakingAggregation :
    (∀ (po mo : Bool) (current latest : GoVersion)
      (curStr latStr changelog : String) (a : Option BreakingChangeAnalysis)
      (sc : Option Terranovate.SchemaChanges) (plan : Option PlanResult),
      (scanVerdict po mo current latest curStr latStr changelog a sc plan).HasBreakingChange =
        (decide ((scanVerdict po mo current latest curStr latStr changelog a sc plan).UpdateType =
            UpdateType.major) ||
         HasBreakingSchemaChanges
           (scanVerdict po mo current latest curStr latStr changelog a sc plan).SchemaChanges ||
         HasCriticalChanges
           (scanVerdict po mo current latest curStr latStr changelog a sc plan).ResourceChanges)) ∧
    (∀ (po mo : Bool) (current latest : GoVersion)
      (curStr latStr changelog : String) (a b : Option BreakingChangeAnalysis)
      (sc : Option Terranovate.SchemaChanges) (plan : Option PlanResult),
      (scanVerdict po mo current latest curStr latStr changelog a sc plan).HasBreakingChange =
        (scanVerdict po mo current latest curStr latStr changelog b sc plan).HasBreakingChange) ∧
    (∀ (po mo : Bool) (current latest : GoVersion)
      (curStr latStr changelog : String) (a : Option BreakingChangeAnalysis)
      (sc : Option Terranovate.SchemaChanges) (plan : Option PlanResult),
      (scanVerdict po mo current latest curStr latStr changelog a sc plan).AIAnalysis = a) ∧
    (∀ (u : UpdateInfo) (s : Terranovate.SchemaChanges),
      HasBreakingSchemaChanges (some s) = true →
      u.BreakingChangeDetails ≠ "" →
      (applySchemaComparison u (some s)).BreakingChangeDetails =
        u.BreakingChangeDetails ++ schemaBreakingAppendSentence) ∧
    (∀ (u : UpdateInfo) (s : Terranovate.SchemaChanges),
      HasBreakingSchemaChanges (some s) = true →
      u.BreakingChangeDetails = "" →
      (applySchemaComparison u (some s)).BreakingChangeDetails = schemaBreakingSentence) ∧
    (∀ (u : UpdateInfo) (p : PlanResult),
      HasCriticalChanges (some (AnalyzeResourceChanges (some p))) = true →
      u.BreakingChangeDetails ≠ "" →
      (applyPlanAnalysis u (some p)).BreakingChangeDetails =
        u.BreakingChangeDetails ++ criticalChangesAppendSentence) ∧
    (∀ (u : UpdateInfo) (p : PlanResult),
      HasCriticalChanges (some (AnalyzeResourceChanges (some p))) = true →
      u.BreakingChangeDetails = "" →
      (applyPlanAnalysis u (some p)).BreakingChangeDetails = criticalChangesSentence) := by
  refine ⟨?_, ?_, ?_, ?_, ?_, ?_, ?_⟩
  · intro po mo current latest curStr latStr changelog a sc plan
    simp only [scanVerdict, applyPlanAnalysis_HasBreakingChange,
      applySchemaComparison_HasBreakingChange, attachAIAnalysis_HasBreakingChange,
      applyPlanAnalysis_UpdateType, applySchemaComparison_UpdateType,
      attachAIAnalysis_UpdateType, applyPlanAnalysis_SchemaChanges,
      applySchemaComparison_SchemaChanges, attachAIAnalysis_SchemaChanges,
      applyPlanAnalysis_ResourceChanges, applySchemaComparison_ResourceChanges,
      attachAIAnalysis_ResourceChanges, checkRegistryVerdict]
    rcases sc with _ | s <;> rcases plan with _ | p <;>
      simp [HasBreakingSchemaChanges, HasCriticalChanges, Bool.or_assoc]
  · intro po mo current latest curStr latStr changelog a b sc plan
    simp only [scanVerdict, applyPlanAnalysis_HasBreakingChange,
      applySchemaComparison_HasBreakingChange, attachAIAnalysis_HasBreakingChange]
  · intro po mo current latest curStr latStr changelog a sc plan
    simp only [scanVerdict, applyPlanAnalysis_AIAnalysis, applySchemaComparison_AIAnalysis]
    exact attachAIAnalysis_AIAnalysis _ a rfl
  · intro u s hbs hne
    simp [applySchemaComparison, hbs, hne]
  · intro u s hbs hemp
    simp [applySchemaComparison, hbs, hemp]
  · intro u p hcrit hne
    simp [applyPlanAnalysis, hcrit, hne]
  · intro u p hcrit hemp
    simp [applyPlanAnalysis, hcrit, hemp]

/-- A breaking schema change set with one added required variable, used to
exercise the aggregation. -/
def exampleBreakingSchemaChanges : SchemaChanges :=
  { HasChanges := true
    AddedRequiredVars := [{ Name := "availability_zone", VarType := "string"
                            Required := true, Description := "" }]
    RemovedVars := []
    ChangedVarTypes := []
    RemovedOutputs := []
    AddedOutputs := [] }

/-- A verdict whose reason text is already non-empty (a major upgrade). -/
def exampleMajorVerdict : UpdateInfo :=
  checkRegistryVerdict false false ⟨[1, 0, 0], ""⟩ ⟨[2, 0, 0], ""⟩ "1.0.0" "2.0.0"
    "https://registry.terraform.io/modules/a/b/c/2.0.0"

/-- Witness for C1: a breaking schema change appends its sentence to the
already non-empty major-upgrade reason text. -/
theorem breakingAggregation_witness :
    (applySchemaComparison exampleMajorVerdict
        (some exampleBreakingSchemaChanges)).BreakingChangeDetails =
      exampleMajorVerdict.BreakingChangeDetails ++ schemaBreakingAppendSentence :=
  breakingAggregation.2.2.2.1 exampleMajorVerdict exampleBreakingSchemaChanges
    (by decide) (by decide)

end Terranovate

namespace Terranovate

/-- `scanner.SourceType` (internal/scanner): registry, git, local path, or
anything else (`localPath` renders the Go constant "local"). -/
inductive SourceType where
  | registry
  | git
  | localPath
  | other
deriving DecidableEq

/-- `scanner.ModuleInfo` (internal/scanner), restricted to the fields the
checker reads. -/
structure ModuleInfo where
  Name : String
  Source : String
  Version : String
  SourceType : Terranovate.SourceType
deriving DecidableEq

/-- `Checker.isIgnored` (internal/version): exact-name membership in the
ignore list. -/
def isIgnored (ignoreModules : List String) (name : String) : Bool :=
  ignoreModules.contains name

/-- The module loop of `Checker.Check` (internal/version).  Per-dependency
resolution (registry or git: source parsing, upstream fetch, version
filtering, current-version parsing) is the injected `checkModule`; any of
its failures is logged and the module skipped.  The optional `analyzeAI`
collaborator is consulted for outdated modules only, its failure also
merely skipped.  Ignored, local and unsupported-source modules are skipped
up front; only outdated verdicts are collected. -/
def checkLoop (ignoreModules : List String)
    (checkModule : ModuleInfo → Except String UpdateInfo)
    (analyzeAI : Option (ModuleInfo → Except String BreakingChangeAnalysis)) :
    List ModuleInfo → List UpdateInfo
  | [] => []
  | m :: rest =>
    if isIgnored ignoreModules m.Name then
      checkLoop ignoreModules checkModule analyzeAI rest
    else if m.SourceType = SourceType.localPath then
      checkLoop ignoreModules checkModule analyzeAI rest
    else
      match m.SourceType with
      | SourceType.registry | SourceType.git =>
        match checkModule m with
        | Except.error _ => checkLoop ignoreModules checkModule analyzeAI rest
        | Except.ok u =>
          if u.IsOutdated then
            (match analyzeAI with
             | none => u
             | some f =>
               match f m with
               | Except.error _ => u
               | Except.ok x => { u with AIAnalysis := some x }) ::
              checkLoop ignoreModules checkModule analyzeAI rest
          else checkLoop ignoreModules checkModule analyzeAI rest
      | _ => checkLoop ignoreModules checkModule analyzeAI rest

/-- `Checker.Check` (internal/version): runs the loop and always returns a
nil batch error. -/
def Check (ignoreModules : List String)
    (checkModule : ModuleInfo → Except String UpdateInfo)
    (analyzeAI : Option (ModuleInfo → Except String BreakingChangeAnalysis))
    (modules : List ModuleInfo) : Except String (List UpdateInfo) :=
  Except.ok (checkLoop ignoreModules checkModule analyzeAI modules)

lemma checkLoop_skips_failing (ign : List String)
    (cm : ModuleInfo → Except String UpdateInfo)
    (ai : Option (ModuleInfo → Except String BreakingChangeAnalysis))
    (m : ModuleInfo) (e : String) (hcm : cm m = Except.error e) :
    ∀ pre post : List ModuleInfo,
      checkLoop ign cm ai (pre ++ m :: post) = checkLoop ign cm ai (pre ++ post) := by
  intro pre
  induction pre with
  | nil =>
    intro post
    simp only [List.nil_append, checkLoop]
    by_cases h1 : isIgnored ign m.Name
    · simp [h1]
    · simp only [h1, Bool.false_eq_true, if_false]
      by_cases h2 : m.SourceType = SourceType.localPath
      · simp [h2]
      · simp only [h2, if_false]
        rcases hst : m.SourceType with _ | _ | _ | _
        · simp [hcm]
        · simp [hcm]
        · exact absurd hst h2
        · rfl
  | cons q pre ih =>
    intro post
    simp only [List.cons_append, checkLoop]
    by_cases h1 : isIgnored ign q.Name
    · simp only [h1, if_true]
      exact ih post
    · simp only [h1, Bool.false_eq_true, if_false]
      by_cases h2 : q.SourceType = SourceType.localPath
      · simp only [h2, if_true]
        exact ih post
      · simp only [h2, if_false]
        rcases hst : q.SourceType with _ | _ | _ | _
        · rcases hq : cm q with e' | u
          · exact ih post
          · by_cases ho : u.IsOutdated
            · simp only [ho, if_true]
              exact congrArg _ (ih post)
            · simp only [ho, Bool.false_eq_true, if_false]
              exact ih post
        · rcases hq : cm q with e' | u
          · exact ih post
          · by_cases ho : u.IsOutdated
            · simp only [ho, if_true]
              exact congrArg _ (ih post)
            · simp only [ho, Bool.false_eq_true, if_false]
              exact ih post
        · exact absurd hst h2
        · exact ih post

end Terranovate

namespace Terranovate

/-- C7: a per-dependency failure (any error from the injected per-module
resolver) never aborts the batch: the failing module is skipped and the
remaining modules produce exactly the verdicts they would produce without
it, and the batch call itself always returns a nil error (an ok value). -/
theorem checkBatch_resilient :
    (∀ (ign : List String) (cm : ModuleInfo → Except String UpdateInfo)
      (ai : Option (ModuleInfo → Except String BreakingChangeAnalysis))
      (pre post : List ModuleInfo) (m : ModuleInfo) (e : String),
      cm m = Except.error e →
      Check ign cm ai (pre ++ m :: post) = Check ign cm ai (pre ++ post)) ∧
    (∀ (ign : List String) (cm : ModuleInfo → Except String UpdateInfo)
      (ai : Option (ModuleInfo → Except String BreakingChangeAnalysis))
      (ms : List ModuleInfo),
      ∃ us, Check ign cm ai ms = Except.ok us) := by
  constructor
  · intro ign cm ai pre post m e hcm
    simp only [Check]
    rw [checkLoop_skips_failing ign cm ai m e hcm pre post]
  · intro ign cm ai ms
    exact ⟨checkLoop ign cm ai ms, rfl⟩

/-- A registry module used to exercise the batch loop. -/
def exampleModule : ModuleInfo :=
  { Name := "vpc", Source := "terraform-aws-modules/vpc/aws",
    Version := "5.0.0", SourceType := SourceType.registry }

/-- A resolver that fails on every module, as when the upstream returns no
versions. -/
def failingChecker : ModuleInfo → Except String UpdateInfo :=
  fun _ => Except.error "no versions found"

/-- Witness for C7: a batch containing only a failing module yields the
same (ok) result as the empty batch. -/
theorem checkBatch_resilient_witness :
    Check [] failingChecker none [exampleModule] = Check [] failingChecker none [] :=
  checkBatch_resilient.1 [] failingChecker none [] [] exampleModule
    "no versions found" rfl

end Terranovate
